import Mathlib

/-!
# Verification of the fuel-station Inventory-and-Sales core

Shallow embedding of the inventory/pricing engine:
`create_fuel_type`, `update_price`, `refill_stock` and `record_sale`
(from `src/modules/fuel_types_service.py`, `src/modules/inventory_service.py`,
`src/modules/sales_service.py`), over a relational store with three tables
(`fuel_types`, `fuel_price_history`, `sales`, from `src/models/entities.py`).

Modelling choices:
* `NUMERIC(·,3)` values (price per litre, stock litres, sale litres) are exact
  fixed-point decimals with scale 3; the boundary accepts them as base-10
  strings with 3 decimal places.  We represent them as integers `ℤ` counting
  milli-units (`12.345` is `12345`), which is exact.  The product
  `litres * price_per_litre` is then in units of `10^-6`, and the
  `NUMERIC(14,2)` column `sales.amount` stores it rounded to centi-units
  (`10^-2`), rounding half away from zero as the store does (`round2`).
* timestamps are a logical clock `Nat`; `NOW()` is the same instant for every
  statement of one transaction, and the clock ticks after each commit.
* each engine operation is one transaction (`session_scope` in `src/db.py`
  commits on success and rolls back on an exception), so an operation that
  raises returns only the error and the driver `applyOp` keeps the pre-state.
* tables are Lean lists of rows; a SQL `UPDATE ... WHERE c` maps the update
  over the rows satisfying `c`, and `RETURNING`/`.first()` takes the first
  affected row.
-/

/-- The domain error taxonomy of `src/errors.py`. -/
inductive DomainError where
  | NotFoundError
  | ValidationError
  | InsufficientStockError
  | ConflictError
deriving DecidableEq, Repr

/-- A row of the `fuel_types` table (`src/models/entities.py`, class
`FuelType`).  `price_per_litre` and `stock_litres` are scale-3 decimals in
milli-units. -/
structure FuelTypeRow where
  id : Nat
  name : String
  price_per_litre : ℤ
  stock_litres : ℤ
  created_at : Nat
  updated_at : Nat
deriving DecidableEq, Repr

/-- A row of the `fuel_price_history` table (class `FuelPriceHistory`);
`valid_to = none` is the open (NULL) interval end. -/
structure PriceHistoryRow where
  id : Nat
  fuel_type_id : Nat
  price_per_litre : ℤ
  valid_from : Nat
  valid_to : Option Nat
deriving DecidableEq, Repr

/-- A row of the `sales` table (class `Sale`).  `litres` and `price_at_sale`
are scale-3 decimals in milli-units; `amount` is a scale-2 decimal in
centi-units. -/
structure SaleRow where
  id : Nat
  fuel_type_id : Nat
  litres : ℤ
  price_at_sale : ℤ
  amount : ℤ
  sold_at : Nat
deriving DecidableEq, Repr

/-- The persistent store: the three tables, the store-assigned id sequences,
and the logical clock `now`. -/
structure DB where
  fuel_types : List FuelTypeRow
  price_history : List PriceHistoryRow
  sales : List SaleRow
  next_ft_id : Nat
  next_ph_id : Nat
  next_sale_id : Nat
  now : Nat
deriving DecidableEq, Repr

/-- The empty store a fresh deployment starts from. -/
def initDB : DB :=
  { fuel_types := [], price_history := [], sales := [],
    next_ft_id := 1, next_ph_id := 1, next_sale_id := 1, now := 0 }

/-- What the store does when the product `:litres * price_per_litre` (a
`10^-6`-unit value when both factors are scale-3 decimals) is inserted into the
`NUMERIC(14,2)` column `sales.amount`: round to 2 decimal places (centi-units),
half away from zero. -/
def round2 (x : ℤ) : ℤ :=
  if x < 0 then -((((-x + 5000).toNat) / 10000 : ℕ) : ℤ)
  else ((((x + 5000).toNat) / 10000 : ℕ) : ℤ)

/-- The Python call `name.strip()`: remove leading and trailing whitespace.
(Defined over the character list so that it is kernel-computable.) -/
def pyStrip (s : String) : String :=
  ⟨((s.data.dropWhile Char.isWhitespace).reverse.dropWhile
      Char.isWhitespace).reverse⟩

/-- Case normalization of a name (lower-casing), used only to state the
case-insensitivity question about the duplicate pre-check. -/
def lowerName (s : String) : String :=
  ⟨s.data.map Char.toLower⟩

/-- Embedding of `create_fuel_type(session, name, price_per_litre, initial_stock)` from
`src/modules/fuel_types_service.py`: strip the name, reject negative
price/stock, pre-check the natural key, insert the `fuel_types` row and the
initial open `fuel_price_history` row in the same transaction. -/
def create_fuel_type (db : DB) (name : String) (price stock : ℤ) :
    Except DomainError (FuelTypeRow × DB) :=
  let name := pyStrip name
  if price < 0 ∨ stock < 0 then
    .error .ValidationError
  else if db.fuel_types.any (fun ft => ft.name == name) then
    .error .ConflictError
  else
    let ft : FuelTypeRow :=
      { id := db.next_ft_id, name := name, price_per_litre := price,
        stock_litres := stock, created_at := db.now, updated_at := db.now }
    let seg : PriceHistoryRow :=
      { id := db.next_ph_id, fuel_type_id := ft.id, price_per_litre := price,
        valid_from := db.now, valid_to := none }
    .ok (ft,
      { db with
        fuel_types := db.fuel_types ++ [ft],
        price_history := db.price_history ++ [seg],
        next_ft_id := db.next_ft_id + 1,
        next_ph_id := db.next_ph_id + 1,
        now := db.now + 1 })

/-- The close statement of `update_price`: `UPDATE fuel_price_history SET
valid_to = NOW() WHERE fuel_type_id = :id AND valid_to IS NULL`, as its effect
on one row. -/
def closeSeg (ftid : Nat) (t0 : Nat) (seg : PriceHistoryRow) : PriceHistoryRow :=
  if seg.fuel_type_id == ftid && seg.valid_to.isNone then
    { seg with valid_to := some t0 } else seg

/-- The fuel-type update statement of `update_price`: `UPDATE fuel_types SET
price_per_litre = :price, updated_at = NOW() WHERE id = :id`, as its effect on
one row. -/
def setPriceRow (ftid : Nat) (p : ℤ) (t0 : Nat) (r : FuelTypeRow) : FuelTypeRow :=
  if r.id == ftid then { r with price_per_litre := p, updated_at := t0 } else r

/-- Embedding of `update_price(session, fuel_type_id, new_price)` from
`src/modules/fuel_types_service.py`: reject a negative price; close every open
history segment of the fuel type (`SET valid_to = NOW() WHERE fuel_type_id =
:id AND valid_to IS NULL`); update the live price and `updated_at`; if no
`fuel_types` row was affected raise `NotFoundError` (the transaction rolls
back, so the history close is undone); otherwise insert a new open history
segment at the new price. -/
def update_price (db : DB) (ftid : Nat) (new_price : ℤ) :
    Except DomainError (FuelTypeRow × DB) :=
  if new_price < 0 then
    .error .ValidationError
  else
    let hist1 := db.price_history.map (closeSeg ftid db.now)
    match (db.fuel_types.filter (fun ft => ft.id == ftid)).head? with
    | none => .error .NotFoundError
    | some ft =>
      let ft2 := { ft with price_per_litre := new_price, updated_at := db.now }
      let seg : PriceHistoryRow :=
        { id := db.next_ph_id, fuel_type_id := ftid, price_per_litre := new_price,
          valid_from := db.now, valid_to := none }
      .ok (ft2,
        { db with
          fuel_types := db.fuel_types.map (setPriceRow ftid new_price db.now),
          price_history := hist1 ++ [seg],
          next_ph_id := db.next_ph_id + 1,
          now := db.now + 1 })

/-- The update statement of `refill_stock`: `UPDATE fuel_types SET
stock_litres = stock_litres + :litres, updated_at = NOW() WHERE id = :id`, as
its effect on one row. -/
def addStockRow (ftid : Nat) (litres : ℤ) (t0 : Nat) (r : FuelTypeRow) : FuelTypeRow :=
  if r.id == ftid then
    { r with stock_litres := r.stock_litres + litres, updated_at := t0 }
  else r

/-- Embedding of `refill_stock(session, fuel_type_id, litres)` from
`src/modules/inventory_service.py`: reject non-positive litres before touching
the store; one unconditional additive `UPDATE` returning the post-update
stock; `NotFoundError` when no row was affected. -/
def refill_stock (db : DB) (ftid : Nat) (litres : ℤ) :
    Except DomainError (ℤ × DB) :=
  if litres ≤ 0 then
    .error .ValidationError
  else
    match (db.fuel_types.filter (fun ft => ft.id == ftid)).head? with
    | none => .error .NotFoundError
    | some ft =>
      .ok (ft.stock_litres + litres,
        { db with
          fuel_types := db.fuel_types.map (addStockRow ftid litres db.now),
          now := db.now + 1 })

/-- The `WHERE` clause of the conditional decrement in `record_sale`:
`WHERE id = :fuel_type_id AND stock_litres >= :litres`. -/
def saleCond (ftid : Nat) (litres : ℤ) (ft : FuelTypeRow) : Bool :=
  ft.id == ftid && litres ≤ ft.stock_litres

/-- The `SET` part of the conditional decrement in `record_sale`:
`SET stock_litres = stock_litres - :litres, updated_at = NOW()` on the rows
matched by `saleCond`. -/
def sellRow (ftid : Nat) (litres : ℤ) (t0 : Nat) (ft : FuelTypeRow) : FuelTypeRow :=
  if saleCond ftid litres ft then
    { ft with stock_litres := ft.stock_litres - litres, updated_at := t0 }
  else ft

/-- The `SELECT` list of the sale insert in `record_sale`: the `sales` row
built from one row returned by the conditional decrement (`SELECT id, :litres,
price_per_litre, (:litres * price_per_litre) FROM updated`), with `amount`
rounded by the `NUMERIC(14,2)` column and `sold_at` defaulting to `NOW()`. -/
def mkSaleRow (db : DB) (litres : ℤ) (ft : FuelTypeRow) : SaleRow :=
  { id := db.next_sale_id, fuel_type_id := ft.id, litres := litres,
    price_at_sale := ft.price_per_litre,
    amount := round2 (litres * ft.price_per_litre), sold_at := db.now }

/-- The rows inserted into `sales` by `record_sale`: one per row affected by
the conditional decrement (the `updated` CTE). -/
def newSalesOf (db : DB) (ftid : Nat) (litres : ℤ) : List SaleRow :=
  (db.fuel_types.filter (saleCond ftid litres)).map (mkSaleRow db litres)

/-- Embedding of `record_sale(session, fuel_type_id, litres)` from
`src/modules/sales_service.py`: reject non-positive litres before touching the
store; one atomic statement that decrements stock conditioned on
`stock_litres >= :litres` (reading `price_per_litre` in the same step) and
inserts a `sales` row per affected row, with `amount` the product rounded by
the `NUMERIC(14,2)` column; if no row was affected, a separate existence check
distinguishes `NotFoundError` from `InsufficientStockError`. -/
def record_sale (db : DB) (ftid : Nat) (litres : ℤ) :
    Except DomainError (SaleRow × DB) :=
  if litres ≤ 0 then
    .error .ValidationError
  else
    match (newSalesOf db ftid litres).head? with
    | none =>
      if db.fuel_types.any (fun ft => ft.id == ftid) then
        .error .InsufficientStockError
      else
        .error .NotFoundError
    | some s =>
      .ok (s,
        { db with
          fuel_types := db.fuel_types.map (sellRow ftid litres db.now),
          sales := db.sales ++ newSalesOf db ftid litres,
          next_sale_id := db.next_sale_id + (newSalesOf db ftid litres).length,
          now := db.now + 1 })

/-- A request to the engine: one of the four mutating operations. -/
inductive Op where
  | create (name : String) (price stock : ℤ)
  | updatePrice (ftid : Nat) (price : ℤ)
  | refill (ftid : Nat) (litres : ℤ)
  | sale (ftid : Nat) (litres : ℤ)
deriving DecidableEq, Repr

/-- Run one operation as one transaction: commit the new store on success,
keep the old store on any raised error (`session_scope` rollback). -/
def applyOp (db : DB) : Op → DB
  | .create n p s =>
    match create_fuel_type db n p s with
    | .ok (_, db2) => db2
    | .error _ => db
  | .updatePrice i p =>
    match update_price db i p with
    | .ok (_, db2) => db2
    | .error _ => db
  | .refill i l =>
    match refill_stock db i l with
    | .ok (_, db2) => db2
    | .error _ => db
  | .sale i l =>
    match record_sale db i l with
    | .ok (_, db2) => db2
    | .error _ => db

/-- Run a sequence of operations. -/
def runOps (db : DB) : List Op → DB
  | [] => db
  | op :: rest => runOps (applyOp db op) rest

/-- A store state reachable from the fresh deployment by engine operations. -/
def Reachable (db : DB) : Prop := ∃ ops : List Op, db = runOps initDB ops

/-- Total litres over the committed sales of one fuel type. -/
def soldSum (ftid : Nat) (sales : List SaleRow) : ℤ :=
  ((sales.filter (fun s => s.fuel_type_id == ftid)).map (fun s => s.litres)).sum

/-- Total stock over the `fuel_types` rows with a given id (ids are unique in
every reachable store, so this is the stock of that fuel type). -/
def stockTotal (ftid : Nat) (fts : List FuelTypeRow) : ℤ :=
  ((fts.filter (fun ft => ft.id == ftid)).map (fun ft => ft.stock_litres)).sum

/-- Number of open (`valid_to IS NULL`) history segments of one fuel type. -/
def openCount (ftid : Nat) (hist : List PriceHistoryRow) : Nat :=
  (hist.filter (fun s => s.fuel_type_id == ftid && s.valid_to.isNone)).length

/-- Committed stock increase (initial stock of a successful create, litres of
a successful refill) that one operation contributes to one fuel type. -/
def intakeStep (db : DB) (op : Op) (ftid : Nat) : ℤ :=
  match op with
  | .create n p s =>
    match create_fuel_type db n p s with
    | .ok (ft, _) => if ft.id = ftid then ft.stock_litres else 0
    | .error _ => 0
  | .refill i l =>
    match refill_stock db i l with
    | .ok _ => if i = ftid then l else 0
    | .error _ => 0
  | _ => 0

/-- Total committed stock increases for one fuel type along a run. -/
def intakeOf (db : DB) (ops : List Op) (ftid : Nat) : ℤ :=
  match ops with
  | [] => 0
  | op :: rest => intakeStep db op ftid + intakeOf (applyOp db op) rest ftid

/-- The price of the sale was live per the price history at some instant no later
than the sale: some history segment of the fuel type of the sale has this price and
its interval contains a timestamp `t ≤ sold_at`. -/
def Covered (s : SaleRow) (hist : List PriceHistoryRow) : Prop :=
  ∃ seg ∈ hist, seg.fuel_type_id = s.fuel_type_id ∧
    seg.price_per_litre = s.price_at_sale ∧
    ∃ t : Nat, t ≤ s.sold_at ∧ seg.valid_from ≤ t ∧
      (seg.valid_to = none ∨ ∃ e, seg.valid_to = some e ∧ t ≤ e)

/-- The store/engine invariant, holding in every reachable state:
primary-key uniqueness and id-sequence freshness, the non-negativity
constraints `ck_ft_price_ge_0` / `ck_ft_stock_ge_0`, exactly one open history
segment per fuel type whose price is the live price, clock monotonicity, and
the per-sale facts (price was live, amount is the rounded product). -/
structure StoreInv (db : DB) : Prop where
  nodup : (db.fuel_types.map (fun ft => ft.id)).Nodup
  ft_lt : ∀ ft ∈ db.fuel_types, ft.id < db.next_ft_id
  stock_nonneg : ∀ ft ∈ db.fuel_types, 0 ≤ ft.stock_litres
  price_nonneg : ∀ ft ∈ db.fuel_types, 0 ≤ ft.price_per_litre
  hist_lt : ∀ seg ∈ db.price_history, seg.fuel_type_id < db.next_ft_id
  openc : ∀ ft ∈ db.fuel_types, openCount ft.id db.price_history = 1
  open_price : ∀ ft ∈ db.fuel_types, ∀ seg ∈ db.price_history,
    seg.fuel_type_id = ft.id → seg.valid_to = none →
    seg.price_per_litre = ft.price_per_litre
  seg_from : ∀ seg ∈ db.price_history, seg.valid_from ≤ db.now
  sale_at : ∀ s ∈ db.sales, s.sold_at ≤ db.now
  covered : ∀ s ∈ db.sales, Covered s db.price_history
  amount_eq : ∀ s ∈ db.sales, s.amount = round2 (s.litres * s.price_at_sale)

theorem inv_initDB : StoreInv initDB := by
  constructor <;> simp [initDB, openCount]

/-- In a table with unique ids, filtering on the id of a member row yields
exactly that row. -/
theorem filter_id_singleton {l : List FuelTypeRow}
    (h : (l.map (fun ft => ft.id)).Nodup) {ft : FuelTypeRow} (hm : ft ∈ l) :
    l.filter (fun r => r.id == ft.id) = [ft] := by
  induction l with
  | nil => cases hm
  | cons a l ih =>
    simp only [List.map_cons, List.nodup_cons, List.mem_map] at h
    rcases List.mem_cons.mp hm with rfl | hm2
    · have hnil : l.filter (fun r => r.id == ft.id) = [] := by
        apply List.filter_eq_nil_iff.mpr
        intro r hr
        simp only [beq_iff_eq]
        intro he
        exact h.1 ⟨r, hr, he⟩
      simp [List.filter_cons, hnil]
    · have hne : a.id ≠ ft.id := fun he => h.1 ⟨ft, hm2, he.symm⟩
      simp [List.filter_cons, hne, ih h.2 hm2]

/-- Filtering on absent ids yields nothing. -/
theorem filter_id_nil {l : List FuelTypeRow} {t : Nat}
    (h : ∀ ft ∈ l, ft.id ≠ t) : l.filter (fun r => r.id == t) = [] := by
  apply List.filter_eq_nil_iff.mpr
  intro r hr
  simp only [beq_iff_eq]
  exact h r hr

/-- An id-preserving row update commutes with filtering on an id. -/
theorem filter_id_map {l : List FuelTypeRow} {f : FuelTypeRow → FuelTypeRow}
    (hid : ∀ r, (f r).id = r.id) (t : Nat) :
    (l.map f).filter (fun r => r.id == t) =
    (l.filter (fun r => r.id == t)).map f := by
  induction l with
  | nil => rfl
  | cons a l ih =>
    by_cases h : a.id = t <;>
      simp [List.filter_cons, List.map_cons, hid, h, ih]

theorem openCount_append (t : Nat) (h1 h2 : List PriceHistoryRow) :
    openCount t (h1 ++ h2) = openCount t h1 + openCount t h2 := by
  simp [openCount, List.filter_append]

theorem openCount_eq_zero {t : Nat} {hist : List PriceHistoryRow}
    (h : ∀ seg ∈ hist, seg.fuel_type_id ≠ t) : openCount t hist = 0 := by
  simp only [openCount, List.length_eq_zero]
  apply List.filter_eq_nil_iff.mpr
  intro seg hseg
  simp [h seg hseg]

/-- Invariant preservation: a successful `create_fuel_type`. -/
theorem inv_create {db : DB} {n : String} {p s : ℤ} {r : FuelTypeRow}
    {db2 : DB} (inv : StoreInv db)
    (h : create_fuel_type db n p s = .ok (r, db2)) : StoreInv db2 := by
  simp only [create_fuel_type] at h
  split at h
  · exact absurd h (by simp)
  · split at h
    · exact absurd h (by simp)
    · rename_i hv _
      push_neg at hv
      obtain ⟨hp, hs⟩ := hv
      simp only [Except.ok.injEq, Prod.mk.injEq] at h
      obtain ⟨-, hdb⟩ := h
      subst hdb
      have hfresh : ∀ ft ∈ db.fuel_types, ft.id ≠ db.next_ft_id :=
        fun ft hft => Nat.ne_of_lt (inv.ft_lt ft hft)
      have hsegfresh : ∀ seg ∈ db.price_history,
          seg.fuel_type_id ≠ db.next_ft_id :=
        fun seg hseg => Nat.ne_of_lt (inv.hist_lt seg hseg)
      constructor
      · simp only [List.map_append, List.map_cons, List.map_nil]
        rw [List.nodup_append]
        refine ⟨inv.nodup, List.nodup_singleton _, ?_⟩
        intro x hx
        simp only [List.mem_map] at hx
        obtain ⟨ft, hft, hid⟩ := hx
        simp [← hid, hfresh ft hft]
      · intro ft hft
        rcases List.mem_append.mp hft with hold | hnew
        · exact Nat.lt_succ_of_lt (inv.ft_lt ft hold)
        · simp only [List.mem_singleton] at hnew
          subst hnew
          exact Nat.lt_succ_self _
      · intro ft hft
        rcases List.mem_append.mp hft with hold | hnew
        · exact inv.stock_nonneg ft hold
        · simp only [List.mem_singleton] at hnew
          subst hnew
          exact hs
      · intro ft hft
        rcases List.mem_append.mp hft with hold | hnew
        · exact inv.price_nonneg ft hold
        · simp only [List.mem_singleton] at hnew
          subst hnew
          exact hp
      · intro seg hseg
        rcases List.mem_append.mp hseg with hold | hnew
        · exact Nat.lt_succ_of_lt (inv.hist_lt seg hold)
        · simp only [List.mem_singleton] at hnew
          subst hnew
          exact Nat.lt_succ_self _
      · intro ft hft
        rcases List.mem_append.mp hft with hold | hnew
        · rw [openCount_append]
          have h1 : openCount ft.id
              [({ id := db.next_ph_id, fuel_type_id := db.next_ft_id,
                  price_per_litre := p, valid_from := db.now,
                  valid_to := none } : PriceHistoryRow)] = 0 := by
            apply openCount_eq_zero
            intro seg hseg
            simp only [List.mem_singleton] at hseg
            subst hseg
            exact fun he => hfresh ft hold he.symm
          rw [h1, inv.openc ft hold]
        · simp only [List.mem_singleton] at hnew
          subst hnew
          rw [openCount_append, openCount_eq_zero hsegfresh]
          simp [openCount, List.filter]
      · intro ft hft seg hseg hid hopen
        rcases List.mem_append.mp hft with hftold | hftnew <;>
          rcases List.mem_append.mp hseg with hsold | hsnew
        · exact inv.open_price ft hftold seg hsold hid hopen
        · simp only [List.mem_singleton] at hsnew
          subst hsnew
          exact absurd hid.symm (hfresh ft hftold)
        · simp only [List.mem_singleton] at hftnew
          subst hftnew
          exact absurd hid (by simpa using hsegfresh seg hsold)
        · simp only [List.mem_singleton] at hftnew hsnew
          subst hftnew
          subst hsnew
          rfl
      · intro seg hseg
        rcases List.mem_append.mp hseg with hold | hnew
        · exact Nat.le_succ_of_le (inv.seg_from seg hold)
        · simp only [List.mem_singleton] at hnew
          subst hnew
          exact Nat.le_succ _
      · intro sl hsl
        exact Nat.le_succ_of_le (inv.sale_at sl hsl)
      · intro sl hsl
        obtain ⟨seg, hseg, h1, h2, t, ht⟩ := inv.covered sl hsl
        exact ⟨seg, List.mem_append_left _ hseg, h1, h2, t, ht⟩
      · intro sl hsl
        exact inv.amount_eq sl hsl

theorem closeSeg_ftid (ftid t0 : Nat) (seg : PriceHistoryRow) :
    (closeSeg ftid t0 seg).fuel_type_id = seg.fuel_type_id := by
  unfold closeSeg
  split <;> rfl

theorem closeSeg_price (ftid t0 : Nat) (seg : PriceHistoryRow) :
    (closeSeg ftid t0 seg).price_per_litre = seg.price_per_litre := by
  unfold closeSeg
  split <;> rfl

theorem closeSeg_from (ftid t0 : Nat) (seg : PriceHistoryRow) :
    (closeSeg ftid t0 seg).valid_from = seg.valid_from := by
  unfold closeSeg
  split <;> rfl

theorem closeSeg_of_ne {ftid : Nat} (t0 : Nat) {seg : PriceHistoryRow}
    (h : seg.fuel_type_id ≠ ftid) : closeSeg ftid t0 seg = seg := by
  unfold closeSeg
  simp [h]

theorem closeSeg_open_iff (ftid t0 : Nat) (seg : PriceHistoryRow) :
    (closeSeg ftid t0 seg).valid_to = none ↔
    seg.valid_to = none ∧ seg.fuel_type_id ≠ ftid := by
  unfold closeSeg
  split
  · rename_i hc
    simp only [Bool.and_eq_true, beq_iff_eq, Option.isNone_iff_eq_none] at hc
    simp [hc.1, hc.2]
  · rename_i hc
    simp only [Bool.and_eq_true, beq_iff_eq, Option.isNone_iff_eq_none,
      not_and] at hc
    constructor
    · intro hopen
      exact ⟨hopen, fun he => hc he hopen⟩
    · exact fun hh => hh.1

/-- A row update commutes with `filter` after adjusting the predicate. -/
theorem filter_map_eq {α : Type} (l : List α) (f : α → α) (p : α → Bool) :
    (l.map f).filter p = (l.filter (fun a => p (f a))).map f := by
  induction l with
  | nil => rfl
  | cons a t ih =>
    by_cases h : p (f a) = true <;> simp [List.filter_cons, h, ih]

theorem openCount_close_ne {t ftid : Nat} (t0 : Nat)
    (hist : List PriceHistoryRow) (h : t ≠ ftid) :
    openCount t (hist.map (closeSeg ftid t0)) = openCount t hist := by
  unfold openCount
  rw [filter_map_eq, List.length_map]
  congr 1
  apply List.filter_congr
  intro seg _
  by_cases hf : seg.fuel_type_id = ftid
  · have h1 : (seg.fuel_type_id == t) = false := by
      simp only [beq_eq_false_iff_ne, ne_eq, hf]
      exact fun he => h he.symm
    rw [closeSeg_ftid, h1]
    simp
  · rw [closeSeg_of_ne t0 hf]

theorem openCount_close_self (ftid t0 : Nat) (hist : List PriceHistoryRow) :
    openCount ftid (hist.map (closeSeg ftid t0)) = 0 := by
  unfold openCount
  rw [filter_map_eq]
  simp only [List.length_map, List.length_eq_zero]
  apply List.filter_eq_nil_iff.mpr
  intro seg _
  intro hc
  simp only [Bool.and_eq_true, beq_iff_eq, Option.isNone_iff_eq_none] at hc
  have h2 := (closeSeg_open_iff ftid t0 seg).mp hc.2
  exact h2.2 ((closeSeg_ftid ftid t0 seg) ▸ hc.1)

theorem head?_filter_eq {l : List FuelTypeRow} {ftid : Nat} {ft : FuelTypeRow}
    (h : (l.filter (fun r => r.id == ftid)).head? = some ft) :
    ft ∈ l ∧ ft.id = ftid := by
  have hm : ft ∈ l.filter (fun r => r.id == ftid) := by
    cases hl : l.filter (fun r => r.id == ftid) with
    | nil => rw [hl] at h; cases h
    | cons b u =>
      rw [hl] at h
      simp only [List.head?_cons, Option.some.injEq] at h
      subst h
      exact List.mem_cons_self _ _
  have h2 := List.mem_filter.mp hm
  exact ⟨h2.1, by simpa using h2.2⟩

/-- An id-preserving row update keeps the id column of the table. -/
theorem map_id_of_update {l : List FuelTypeRow} {f : FuelTypeRow → FuelTypeRow}
    (hid : ∀ r, (f r).id = r.id) :
    (l.map f).map (fun ft => ft.id) = l.map (fun ft => ft.id) := by
  rw [List.map_map]
  exact List.map_congr_left (fun r _ => hid r)

theorem setPriceRow_id (ftid : Nat) (p : ℤ) (t0 : Nat) (r : FuelTypeRow) :
    (setPriceRow ftid p t0 r).id = r.id := by
  unfold setPriceRow
  split <;> rfl

theorem setPriceRow_stock (ftid : Nat) (p : ℤ) (t0 : Nat) (r : FuelTypeRow) :
    (setPriceRow ftid p t0 r).stock_litres = r.stock_litres := by
  unfold setPriceRow
  split <;> rfl

theorem setPriceRow_of_ne {ftid : Nat} (p : ℤ) (t0 : Nat) {r : FuelTypeRow}
    (h : r.id ≠ ftid) : setPriceRow ftid p t0 r = r := by
  unfold setPriceRow
  simp [h]

theorem setPriceRow_of_eq {ftid : Nat} (p : ℤ) (t0 : Nat) {r : FuelTypeRow}
    (h : r.id = ftid) :
    setPriceRow ftid p t0 r =
    { r with price_per_litre := p, updated_at := t0 } := by
  unfold setPriceRow
  simp [h]

theorem addStockRow_id (ftid : Nat) (litres : ℤ) (t0 : Nat) (r : FuelTypeRow) :
    (addStockRow ftid litres t0 r).id = r.id := by
  unfold addStockRow
  split <;> rfl

theorem addStockRow_price (ftid : Nat) (litres : ℤ) (t0 : Nat)
    (r : FuelTypeRow) :
    (addStockRow ftid litres t0 r).price_per_litre = r.price_per_litre := by
  unfold addStockRow
  split <;> rfl

theorem addStockRow_of_ne {ftid : Nat} (litres : ℤ) (t0 : Nat)
    {r : FuelTypeRow} (h : r.id ≠ ftid) : addStockRow ftid litres t0 r = r := by
  unfold addStockRow
  simp [h]

theorem addStockRow_of_eq {ftid : Nat} (litres : ℤ) (t0 : Nat)
    {r : FuelTypeRow} (h : r.id = ftid) :
    addStockRow ftid litres t0 r =
    { r with stock_litres := r.stock_litres + litres, updated_at := t0 } := by
  unfold addStockRow
  simp [h]

theorem sellRow_id (ftid : Nat) (litres : ℤ) (t0 : Nat) (r : FuelTypeRow) :
    (sellRow ftid litres t0 r).id = r.id := by
  unfold sellRow
  split <;> rfl

theorem sellRow_price (ftid : Nat) (litres : ℤ) (t0 : Nat) (r : FuelTypeRow) :
    (sellRow ftid litres t0 r).price_per_litre = r.price_per_litre := by
  unfold sellRow
  split <;> rfl

theorem sellRow_name (ftid : Nat) (litres : ℤ) (t0 : Nat) (r : FuelTypeRow) :
    (sellRow ftid litres t0 r).name = r.name := by
  unfold sellRow
  split <;> rfl

theorem sellRow_of_ne {ftid : Nat} (litres : ℤ) (t0 : Nat) {r : FuelTypeRow}
    (h : r.id ≠ ftid) : sellRow ftid litres t0 r = r := by
  unfold sellRow saleCond
  simp [h]

theorem sellRow_of_cond {ftid : Nat} {litres : ℤ} (t0 : Nat) {r : FuelTypeRow}
    (h : saleCond ftid litres r = true) :
    sellRow ftid litres t0 r =
    { r with stock_litres := r.stock_litres - litres, updated_at := t0 } := by
  unfold sellRow
  simp [h]

theorem sellRow_of_not_cond {ftid : Nat} {litres : ℤ} (t0 : Nat)
    {r : FuelTypeRow} (h : ¬ saleCond ftid litres r = true) :
    sellRow ftid litres t0 r = r := by
  unfold sellRow
  simp [h]

/-- Invariant preservation: a successful `update_price`. -/
theorem inv_update_price {db : DB} {ftid : Nat} {p : ℤ} {r : FuelTypeRow}
    {db2 : DB} (inv : StoreInv db)
    (h : update_price db ftid p = .ok (r, db2)) : StoreInv db2 := by
  unfold update_price at h
  split at h
  · exact absurd h (by simp)
  · rename_i hp
    rw [not_lt] at hp
    split at h
    · exact absurd h (by simp)
    · rename_i ft0 hhead
      obtain ⟨hft0mem, hft0id⟩ := head?_filter_eq hhead
      simp only [Except.ok.injEq, Prod.mk.injEq] at h
      obtain ⟨-, hdb⟩ := h
      subst hdb
      constructor
      · rw [map_id_of_update (setPriceRow_id ftid p db.now)]
        exact inv.nodup
      · intro ft hft
        obtain ⟨r0, hr0, rfl⟩ := List.mem_map.mp hft
        rw [setPriceRow_id]
        exact inv.ft_lt r0 hr0
      · intro ft hft
        obtain ⟨r0, hr0, rfl⟩ := List.mem_map.mp hft
        rw [setPriceRow_stock]
        exact inv.stock_nonneg r0 hr0
      · intro ft hft
        obtain ⟨r0, hr0, rfl⟩ := List.mem_map.mp hft
        by_cases hc : r0.id = ftid
        · rw [setPriceRow_of_eq p db.now hc]
          exact hp
        · rw [setPriceRow_of_ne p db.now hc]
          exact inv.price_nonneg r0 hr0
      · intro seg hseg
        rcases List.mem_append.mp hseg with hold | hnew
        · obtain ⟨s0, hs0, rfl⟩ := List.mem_map.mp hold
          rw [closeSeg_ftid]
          exact inv.hist_lt s0 hs0
        · simp only [List.mem_singleton] at hnew
          subst hnew
          exact hft0id ▸ inv.ft_lt ft0 hft0mem
      · intro ft hft
        obtain ⟨r0, hr0, rfl⟩ := List.mem_map.mp hft
        rw [setPriceRow_id, openCount_append]
        by_cases hcase : r0.id = ftid
        · rw [hcase, openCount_close_self]
          simp [openCount, List.filter]
        · rw [openCount_close_ne db.now db.price_history hcase,
            inv.openc r0 hr0]
          have h0 : openCount r0.id
              [({ id := db.next_ph_id, fuel_type_id := ftid,
                  price_per_litre := p, valid_from := db.now,
                  valid_to := none } : PriceHistoryRow)] = 0 := by
            apply openCount_eq_zero
            intro seg hseg
            simp only [List.mem_singleton] at hseg
            subst hseg
            exact fun he => hcase he.symm
          rw [h0]
      · intro ft hft seg hseg hid hopen
        obtain ⟨r0, hr0, rfl⟩ := List.mem_map.mp hft
        rw [setPriceRow_id] at hid
        rcases List.mem_append.mp hseg with hold | hnew
        · obtain ⟨s0, hs0, rfl⟩ := List.mem_map.mp hold
          have hso := (closeSeg_open_iff ftid db.now s0).mp hopen
          rw [closeSeg_of_ne db.now hso.2] at hid hopen ⊢
          have hr0ne : r0.id ≠ ftid := fun he => hso.2 (hid.trans he)
          rw [setPriceRow_of_ne p db.now hr0ne]
          exact inv.open_price r0 hr0 s0 hs0 hid hopen
        · simp only [List.mem_singleton] at hnew
          subst hnew
          rw [setPriceRow_of_eq p db.now hid.symm]
      · intro seg hseg
        rcases List.mem_append.mp hseg with hold | hnew
        · obtain ⟨s0, hs0, rfl⟩ := List.mem_map.mp hold
          rw [closeSeg_from]
          exact Nat.le_succ_of_le (inv.seg_from s0 hs0)
        · simp only [List.mem_singleton] at hnew
          subst hnew
          exact Nat.le_succ _
      · intro sl hsl
        exact Nat.le_succ_of_le (inv.sale_at sl hsl)
      · intro sl hsl
        obtain ⟨seg0, hseg0, h1, h2, t, ht1, ht2, ht3⟩ := inv.covered sl hsl
        refine ⟨closeSeg ftid db.now seg0,
          List.mem_append_left _ (List.mem_map_of_mem _ hseg0),
          by rw [closeSeg_ftid]; exact h1,
          by rw [closeSeg_price]; exact h2,
          t, ht1, by rw [closeSeg_from]; exact ht2, ?_⟩
        unfold closeSeg
        split
        · right
          exact ⟨db.now, rfl, le_trans ht1 (inv.sale_at sl hsl)⟩
        · exact ht3
      · intro sl hsl
        exact inv.amount_eq sl hsl

/-- Invariant preservation: a successful `refill_stock`. -/
theorem inv_refill {db : DB} {ftid : Nat} {litres : ℤ} {v : ℤ} {db2 : DB}
    (inv : StoreInv db) (h : refill_stock db ftid litres = .ok (v, db2)) :
    StoreInv db2 := by
  unfold refill_stock at h
  split at h
  · exact absurd h (by simp)
  · rename_i hl
    rw [not_le] at hl
    split at h
    · exact absurd h (by simp)
    · rename_i ft0 hhead
      simp only [Except.ok.injEq, Prod.mk.injEq] at h
      obtain ⟨-, hdb⟩ := h
      subst hdb
      constructor
      · rw [map_id_of_update (addStockRow_id ftid litres db.now)]
        exact inv.nodup
      · intro ft hft
        obtain ⟨r0, hr0, rfl⟩ := List.mem_map.mp hft
        rw [addStockRow_id]
        exact inv.ft_lt r0 hr0
      · intro ft hft
        obtain ⟨r0, hr0, rfl⟩ := List.mem_map.mp hft
        by_cases hc : r0.id = ftid
        · rw [addStockRow_of_eq litres db.now hc]
          exact add_nonneg (inv.stock_nonneg r0 hr0) (le_of_lt hl)
        · rw [addStockRow_of_ne litres db.now hc]
          exact inv.stock_nonneg r0 hr0
      · intro ft hft
        obtain ⟨r0, hr0, rfl⟩ := List.mem_map.mp hft
        rw [addStockRow_price]
        exact inv.price_nonneg r0 hr0
      · intro seg hseg
        exact inv.hist_lt seg hseg
      · intro ft hft
        obtain ⟨r0, hr0, rfl⟩ := List.mem_map.mp hft
        rw [addStockRow_id]
        exact inv.openc r0 hr0
      · intro ft hft seg hseg hid hopen
        obtain ⟨r0, hr0, rfl⟩ := List.mem_map.mp hft
        rw [addStockRow_id] at hid
        rw [addStockRow_price]
        exact inv.open_price r0 hr0 seg hseg hid hopen
      · intro seg hseg
        exact Nat.le_succ_of_le (inv.seg_from seg hseg)
      · intro sl hsl
        exact Nat.le_succ_of_le (inv.sale_at sl hsl)
      · intro sl hsl
        exact inv.covered sl hsl
      · intro sl hsl
        exact inv.amount_eq sl hsl

/-- A fuel type with `openCount` 1 has an open history segment. -/
theorem exists_open_seg {t : Nat} {hist : List PriceHistoryRow}
    (h : openCount t hist = 1) :
    ∃ seg ∈ hist, seg.fuel_type_id = t ∧ seg.valid_to = none := by
  unfold openCount at h
  have hne : hist.filter
      (fun s => s.fuel_type_id == t && s.valid_to.isNone) ≠ [] := by
    intro he
    rw [he] at h
    cases h
  obtain ⟨seg, hseg⟩ := List.exists_mem_of_ne_nil _ hne
  have h2 := List.mem_filter.mp hseg
  refine ⟨seg, h2.1, ?_⟩
  have h3 := h2.2
  simp only [Bool.and_eq_true, beq_iff_eq, Option.isNone_iff_eq_none] at h3
  exact h3

/-- A member of `newSalesOf db ftid litres` comes from a fuel-type row that
matched the conditional decrement. -/
theorem newSalesOf_char {db : DB} {ftid : Nat} {litres : ℤ} {sl : SaleRow}
    (h : sl ∈ newSalesOf db ftid litres) :
    ∃ ft1 ∈ db.fuel_types, ft1.id = ftid ∧ litres ≤ ft1.stock_litres ∧
      sl = mkSaleRow db litres ft1 := by
  unfold newSalesOf at h
  obtain ⟨ft1, hft1, rfl⟩ := List.mem_map.mp h
  have h2 := List.mem_filter.mp hft1
  have h3 := h2.2
  simp only [saleCond, Bool.and_eq_true, beq_iff_eq, decide_eq_true_eq] at h3
  exact ⟨ft1, h2.1, h3.1, h3.2, rfl⟩

/-- Invariant preservation: a successful `record_sale`. -/
theorem inv_sale {db : DB} {ftid : Nat} {litres : ℤ} {s : SaleRow} {db2 : DB}
    (inv : StoreInv db) (h : record_sale db ftid litres = .ok (s, db2)) :
    StoreInv db2 := by
  unfold record_sale at h
  split at h
  · exact absurd h (by simp)
  · rename_i hl
    rw [not_le] at hl
    split at h
    · split at h
      · exact absurd h (by simp)
      · exact absurd h (by simp)
    · rename_i s0 hhead
      simp only [Except.ok.injEq, Prod.mk.injEq] at h
      obtain ⟨-, hdb⟩ := h
      subst hdb
      constructor
      · rw [map_id_of_update (sellRow_id ftid litres db.now)]
        exact inv.nodup
      · intro ft hft
        obtain ⟨r0, hr0, rfl⟩ := List.mem_map.mp hft
        rw [sellRow_id]
        exact inv.ft_lt r0 hr0
      · intro ft hft
        obtain ⟨r0, hr0, rfl⟩ := List.mem_map.mp hft
        by_cases hc : saleCond ftid litres r0 = true
        · rw [sellRow_of_cond db.now hc]
          simp only [saleCond, Bool.and_eq_true, beq_iff_eq,
            decide_eq_true_eq] at hc
          exact sub_nonneg.mpr hc.2
        · rw [sellRow_of_not_cond db.now hc]
          exact inv.stock_nonneg r0 hr0
      · intro ft hft
        obtain ⟨r0, hr0, rfl⟩ := List.mem_map.mp hft
        rw [sellRow_price]
        exact inv.price_nonneg r0 hr0
      · intro seg hseg
        exact inv.hist_lt seg hseg
      · intro ft hft
        obtain ⟨r0, hr0, rfl⟩ := List.mem_map.mp hft
        rw [sellRow_id]
        exact inv.openc r0 hr0
      · intro ft hft seg hseg hid hopen
        obtain ⟨r0, hr0, rfl⟩ := List.mem_map.mp hft
        rw [sellRow_id] at hid
        rw [sellRow_price]
        exact inv.open_price r0 hr0 seg hseg hid hopen
      · intro seg hseg
        exact Nat.le_succ_of_le (inv.seg_from seg hseg)
      · intro sl hsl
        rcases List.mem_append.mp hsl with hold | hnewm
        · exact Nat.le_succ_of_le (inv.sale_at sl hold)
        · obtain ⟨ft1, hft1, hid1, hstk1, rfl⟩ := newSalesOf_char hnewm
          exact Nat.le_succ _
      · intro sl hsl
        rcases List.mem_append.mp hsl with hold | hnewm
        · exact inv.covered sl hold
        · obtain ⟨ft1, hft1, hid1, hstk1, rfl⟩ := newSalesOf_char hnewm
          obtain ⟨seg, hseg, hsegid, hsegopen⟩ :=
            exists_open_seg (inv.openc ft1 hft1)
          refine ⟨seg, hseg, hsegid, ?_, db.now, le_refl _,
            inv.seg_from seg hseg, Or.inl hsegopen⟩
          exact inv.open_price ft1 hft1 seg hseg hsegid hsegopen
      · intro sl hsl
        rcases List.mem_append.mp hsl with hold | hnewm
        · exact inv.amount_eq sl hold
        · obtain ⟨ft1, hft1, hid1, hstk1, rfl⟩ := newSalesOf_char hnewm
          rfl

/-- Every transaction preserves the store invariant. -/
theorem inv_applyOp {db : DB} (inv : StoreInv db) (op : Op) :
    StoreInv (applyOp db op) := by
  cases op with
  | create n p s =>
    simp only [applyOp]
    cases hres : create_fuel_type db n p s with
    | error e => exact inv
    | ok v =>
      obtain ⟨r, db2⟩ := v
      exact inv_create inv hres
  | updatePrice i p =>
    simp only [applyOp]
    cases hres : update_price db i p with
    | error e => exact inv
    | ok v =>
      obtain ⟨r, db2⟩ := v
      exact inv_update_price inv hres
  | refill i l =>
    simp only [applyOp]
    cases hres : refill_stock db i l with
    | error e => exact inv
    | ok v =>
      obtain ⟨r, db2⟩ := v
      exact inv_refill inv hres
  | sale i l =>
    simp only [applyOp]
    cases hres : record_sale db i l with
    | error e => exact inv
    | ok v =>
      obtain ⟨r, db2⟩ := v
      exact inv_sale inv hres

theorem inv_runOps (ops : List Op) : ∀ db : DB, StoreInv db →
    StoreInv (runOps db ops) := by
  induction ops with
  | nil => exact fun db inv => inv
  | cons op rest ih => exact fun db inv => ih (applyOp db op) (inv_applyOp inv op)

/-- Every reachable store state satisfies the invariant. -/
theorem inv_reachable {db : DB} (h : Reachable db) : StoreInv db := by
  obtain ⟨ops, rfl⟩ := h
  exact inv_runOps ops initDB inv_initDB

/-- Inversion of a successful `create_fuel_type`. -/
theorem create_ok_elim {db : DB} {n : String} {p s : ℤ} {r : FuelTypeRow}
    {db2 : DB} (h : create_fuel_type db n p s = .ok (r, db2)) :
    0 ≤ p ∧ 0 ≤ s ∧ (∀ ft ∈ db.fuel_types, ft.name ≠ pyStrip n) ∧
    r = { id := db.next_ft_id, name := pyStrip n, price_per_litre := p,
          stock_litres := s, created_at := db.now, updated_at := db.now } ∧
    db2 = { db with
            fuel_types := db.fuel_types ++ [r],
            price_history := db.price_history ++
              [{ id := db.next_ph_id, fuel_type_id := db.next_ft_id,
                 price_per_litre := p, valid_from := db.now,
                 valid_to := none }],
            next_ft_id := db.next_ft_id + 1,
            next_ph_id := db.next_ph_id + 1,
            now := db.now + 1 } := by
  simp only [create_fuel_type] at h
  split at h
  · exact absurd h (by simp)
  · split at h
    · exact absurd h (by simp)
    · rename_i hv hc
      push_neg at hv
      simp only [List.any_eq_true, beq_iff_eq, not_exists, not_and] at hc
      simp only [Except.ok.injEq, Prod.mk.injEq] at h
      obtain ⟨hr, hdb⟩ := h
      subst hr
      subst hdb
      exact ⟨hv.1, hv.2, fun ft hft => hc ft hft, rfl, rfl⟩

/-- Inversion of a successful `update_price`. -/
theorem update_ok_elim {db : DB} {i : Nat} {p : ℤ} {r : FuelTypeRow}
    {db2 : DB} (h : update_price db i p = .ok (r, db2)) :
    0 ≤ p ∧ ∃ ft0, (db.fuel_types.filter (fun q => q.id == i)).head? = some ft0 ∧
      r = { ft0 with price_per_litre := p, updated_at := db.now } ∧
      db2 = { db with
              fuel_types := db.fuel_types.map (setPriceRow i p db.now),
              price_history := db.price_history.map (closeSeg i db.now) ++
                [{ id := db.next_ph_id, fuel_type_id := i,
                   price_per_litre := p, valid_from := db.now,
                   valid_to := none }],
              next_ph_id := db.next_ph_id + 1,
              now := db.now + 1 } := by
  unfold update_price at h
  split at h
  · exact absurd h (by simp)
  · rename_i hp
    rw [not_lt] at hp
    split at h
    · exact absurd h (by simp)
    · rename_i ft0 hhead
      simp only [Except.ok.injEq, Prod.mk.injEq] at h
      obtain ⟨hr, hdb⟩ := h
      exact ⟨hp, ft0, hhead, hr.symm, hdb.symm⟩

/-- Inversion of a successful `refill_stock`. -/
theorem refill_ok_elim {db : DB} {i : Nat} {l v : ℤ} {db2 : DB}
    (h : refill_stock db i l = .ok (v, db2)) :
    0 < l ∧ ∃ ft0, (db.fuel_types.filter (fun q => q.id == i)).head? = some ft0 ∧
      v = ft0.stock_litres + l ∧
      db2 = { db with
              fuel_types := db.fuel_types.map (addStockRow i l db.now),
              now := db.now + 1 } := by
  unfold refill_stock at h
  split at h
  · exact absurd h (by simp)
  · rename_i hl
    rw [not_le] at hl
    split at h
    · exact absurd h (by simp)
    · rename_i ft0 hhead
      simp only [Except.ok.injEq, Prod.mk.injEq] at h
      obtain ⟨hv, hdb⟩ := h
      exact ⟨hl, ft0, hhead, hv.symm, hdb.symm⟩

/-- Inversion of a successful `record_sale`. -/
theorem sale_ok_elim {db : DB} {i : Nat} {l : ℤ} {s : SaleRow} {db2 : DB}
    (h : record_sale db i l = .ok (s, db2)) :
    0 < l ∧ (newSalesOf db i l).head? = some s ∧
      db2 = { db with
              fuel_types := db.fuel_types.map (sellRow i l db.now),
              sales := db.sales ++ newSalesOf db i l,
              next_sale_id := db.next_sale_id +
                (newSalesOf db i l).length,
              now := db.now + 1 } := by
  unfold record_sale at h
  split at h
  · exact absurd h (by simp)
  · rename_i hl
    rw [not_le] at hl
    split at h
    · split at h
      · exact absurd h (by simp)
      · exact absurd h (by simp)
    · rename_i s0 hhead
      simp only [Except.ok.injEq, Prod.mk.injEq] at h
      obtain ⟨hs, hdb⟩ := h
      subst hs
      exact ⟨hl, hhead, hdb.symm⟩

/-- In a table with unique ids, filtering with a predicate that pins the id
and holds of a member row yields exactly that row. -/
theorem filter_eq_singleton_of_nodup {l : List FuelTypeRow}
    (hnd : (l.map (fun ft => ft.id)).Nodup) {p : FuelTypeRow → Bool} {k : Nat}
    (hp : ∀ r, p r = true → r.id = k) {ft : FuelTypeRow}
    (hm : ft ∈ l) (hft : p ft = true) : l.filter p = [ft] := by
  induction l with
  | nil => cases hm
  | cons a l ih =>
    simp only [List.map_cons, List.nodup_cons, List.mem_map] at hnd
    rcases List.mem_cons.mp hm with rfl | hm2
    · have hnil : l.filter p = [] := by
        apply List.filter_eq_nil_iff.mpr
        intro r hr hpr
        exact hnd.1 ⟨r, hr, (hp r hpr).trans (hp ft hft).symm⟩
      simp [List.filter_cons, hft, hnil]
    · have hpa : ¬ p a = true := fun hpa =>
        hnd.1 ⟨ft, hm2, (hp ft hft).trans (hp a hpa).symm⟩
      simp [List.filter_cons, hpa, ih hnd.2 hm2]

theorem soldSum_append (t : Nat) (s1 s2 : List SaleRow) :
    soldSum t (s1 ++ s2) = soldSum t s1 + soldSum t s2 := by
  simp [soldSum, List.filter_append]

theorem soldSum_singleton (t : Nat) (sl : SaleRow) :
    soldSum t [sl] = if sl.fuel_type_id = t then sl.litres else 0 := by
  by_cases h : sl.fuel_type_id = t <;> simp [soldSum, List.filter_cons, h]

theorem stockTotal_append (t : Nat) (l1 l2 : List FuelTypeRow) :
    stockTotal t (l1 ++ l2) = stockTotal t l1 + stockTotal t l2 := by
  simp [stockTotal, List.filter_append]

theorem stockTotal_singleton (t : Nat) (ft : FuelTypeRow) :
    stockTotal t [ft] = if ft.id = t then ft.stock_litres else 0 := by
  by_cases h : ft.id = t <;> simp [stockTotal, List.filter_cons, h]

theorem stockTotal_map_setPrice (t ftid : Nat) (p : ℤ) (t0 : Nat)
    (l : List FuelTypeRow) :
    stockTotal t (l.map (setPriceRow ftid p t0)) = stockTotal t l := by
  unfold stockTotal
  rw [filter_id_map (setPriceRow_id ftid p t0) t, List.map_map]
  congr 1
  apply List.map_congr_left
  intro r _
  exact setPriceRow_stock ftid p t0 r

theorem stockTotal_map_addStock_ne {t ftid : Nat} (litres : ℤ) (t0 : Nat)
    (l : List FuelTypeRow) (h : t ≠ ftid) :
    stockTotal t (l.map (addStockRow ftid litres t0)) = stockTotal t l := by
  unfold stockTotal
  rw [filter_id_map (addStockRow_id ftid litres t0) t, List.map_map]
  congr 1
  apply List.map_congr_left
  intro r hr
  have hid : r.id = t := by simpa using (List.mem_filter.mp hr).2
  have hne : r.id ≠ ftid := by rw [hid]; exact h
  simp [Function.comp, addStockRow_of_ne litres t0 hne]

theorem stockTotal_map_sell_ne {t ftid : Nat} (litres : ℤ) (t0 : Nat)
    (l : List FuelTypeRow) (h : t ≠ ftid) :
    stockTotal t (l.map (sellRow ftid litres t0)) = stockTotal t l := by
  unfold stockTotal
  rw [filter_id_map (sellRow_id ftid litres t0) t, List.map_map]
  congr 1
  apply List.map_congr_left
  intro r hr
  have hid : r.id = t := by simpa using (List.mem_filter.mp hr).2
  have hne : r.id ≠ ftid := by rw [hid]; exact h
  simp [Function.comp, sellRow_of_ne litres t0 hne]

/-- Stock conservation of one transaction: sold litres plus remaining stock
change by exactly the committed intake of the operation. -/
theorem conserve_applyOp {db : DB} (inv : StoreInv db) (op : Op) (t : Nat) :
    soldSum t (applyOp db op).sales + stockTotal t (applyOp db op).fuel_types
    = soldSum t db.sales + stockTotal t db.fuel_types + intakeStep db op t := by
  cases op with
  | create n p s =>
    simp only [applyOp, intakeStep]
    cases hres : create_fuel_type db n p s with
    | error e => simp
    | ok v =>
      obtain ⟨r, db2⟩ := v
      obtain ⟨hp, hs, hc, hr, hdb⟩ := create_ok_elim hres
      subst hdb
      simp only
      rw [stockTotal_append, stockTotal_singleton]
      subst hr
      by_cases hcase : db.next_ft_id = t
      · simp only [hcase, if_pos rfl, beq_self_eq_true, if_true]
        ring
      · simp [hcase]
  | updatePrice i p =>
    simp only [applyOp, intakeStep]
    cases hres : update_price db i p with
    | error e => simp
    | ok v =>
      obtain ⟨r, db2⟩ := v
      obtain ⟨hp, ft0, hhead, hr, hdb⟩ := update_ok_elim hres
      subst hdb
      simp only
      rw [stockTotal_map_setPrice]
      ring
  | refill i l =>
    simp only [applyOp, intakeStep]
    cases hres : refill_stock db i l with
    | error e => simp
    | ok v =>
      obtain ⟨r, db2⟩ := v
      obtain ⟨hl, ft0, hhead, hv, hdb⟩ := refill_ok_elim hres
      subst hdb
      simp only [hres]
      obtain ⟨hft0mem, hft0id⟩ := head?_filter_eq hhead
      by_cases hcase : i = t
      · subst hcase
        have h1 : db.fuel_types.filter (fun q => q.id == i) = [ft0] := by
          have := filter_id_singleton inv.nodup hft0mem
          rw [hft0id] at this
          exact this
        unfold stockTotal
        rw [filter_id_map (addStockRow_id i l db.now) i, h1]
        rw [List.map_map]
        simp [Function.comp, addStockRow_of_eq l db.now hft0id]
        ring
      · rw [stockTotal_map_addStock_ne l db.now db.fuel_types
          (fun he => hcase he.symm)]
        simp [hcase]
  | sale i l =>
    simp only [applyOp, intakeStep]
    cases hres : record_sale db i l with
    | error e => simp
    | ok v =>
      obtain ⟨r, db2⟩ := v
      obtain ⟨hl, hhead, hdb⟩ := sale_ok_elim hres
      subst hdb
      simp only
      have hmem : r ∈ newSalesOf db i l := by
        cases hn : newSalesOf db i l with
        | nil => rw [hn] at hhead; cases hhead
        | cons b u =>
          rw [hn] at hhead
          simp only [List.head?_cons, Option.some.injEq] at hhead
          subst hhead
          exact List.mem_cons_self _ _
      obtain ⟨ft1, hft1, hid1, hstk1, hr⟩ := newSalesOf_char hmem
      have hcond : saleCond i l ft1 = true := by
        simp [saleCond, hid1, hstk1]
      have hupd : db.fuel_types.filter (saleCond i l) = [ft1] :=
        filter_eq_singleton_of_nodup inv.nodup
          (fun q hq => by
            simp only [saleCond, Bool.and_eq_true, beq_iff_eq] at hq
            exact hq.1) hft1 hcond
      have hnew : newSalesOf db i l = [mkSaleRow db l ft1] := by
        unfold newSalesOf
        rw [hupd]
        rfl
      rw [hnew, soldSum_append, soldSum_singleton]
      by_cases hcase : i = t
      · subst hcase
        have h1 : db.fuel_types.filter (fun q => q.id == i) = [ft1] := by
          have := filter_id_singleton inv.nodup hft1
          rw [hid1] at this
          exact this
        unfold stockTotal
        rw [filter_id_map (sellRow_id i l db.now) i, h1]
        rw [List.map_map]
        simp [Function.comp, sellRow_of_cond db.now hcond, mkSaleRow, hid1]
      · rw [stockTotal_map_sell_ne l db.now db.fuel_types
          (fun he => hcase he.symm)]
        simp [mkSaleRow, hid1, hcase]

/-- Stock conservation along a run. -/
theorem conserve_runOps (ops : List Op) : ∀ db : DB, StoreInv db → ∀ t : Nat,
    soldSum t (runOps db ops).sales + stockTotal t (runOps db ops).fuel_types
    = soldSum t db.sales + stockTotal t db.fuel_types + intakeOf db ops t := by
  induction ops with
  | nil => intro db inv t; simp [runOps, intakeOf]
  | cons op rest ih =>
    intro db inv t
    have h1 := ih (applyOp db op) (inv_applyOp inv op) t
    simp only [runOps, intakeOf]
    rw [h1, conserve_applyOp inv op t]
    ring

/-- Non-negativity of the per-fuel-type stock total. -/
theorem stockTotal_nonneg {db : DB} (inv : StoreInv db) (t : Nat) :
    0 ≤ stockTotal t db.fuel_types := by
  unfold stockTotal
  apply List.sum_nonneg
  intro x hx
  obtain ⟨ft, hft, rfl⟩ := List.mem_map.mp hx
  exact inv.stock_nonneg ft (List.mem_filter.mp hft).1

/-- C2: in every state reachable by any sequence of `create_fuel_type`,
`update_price`, `refill_stock` and `record_sale` operations, every fuel type
has `stock_litres ≥ 0` and `price_per_litre ≥ 0`, and for every fuel type the
sum of litres over all committed Sale rows is at most the initial
stock plus the sum of all committed refill litres (`intakeOf`). -/
theorem C2_nonneg_and_stock_conservation (ops : List Op) :
    (∀ ft ∈ (runOps initDB ops).fuel_types,
      0 ≤ ft.stock_litres ∧ 0 ≤ ft.price_per_litre) ∧
    ∀ ftid : Nat,
      soldSum ftid (runOps initDB ops).sales ≤ intakeOf initDB ops ftid := by
  have inv := inv_runOps ops initDB inv_initDB
  constructor
  · intro ft hft
    exact ⟨inv.stock_nonneg ft hft, inv.price_nonneg ft hft⟩
  · intro ftid
    have h := conserve_runOps ops initDB inv_initDB ftid
    have h0 : soldSum ftid initDB.sales = 0 := rfl
    have h1 : stockTotal ftid initDB.fuel_types = 0 := rfl
    rw [h0, h1] at h
    have h2 := stockTotal_nonneg inv ftid
    linarith

/-- C3: for every Sale row created by `record_sale` (i.e. every sale in a
reachable store), the stored amount is `litres * price_at_sale` rounded to
exactly 2 decimal places by the `NUMERIC(14,2)` column. -/
theorem C3_sale_amount_rounded {db : DB} (h : Reachable db) :
    ∀ s ∈ db.sales, s.amount = round2 (s.litres * s.price_at_sale) :=
  fun s hs => (inv_reachable h).amount_eq s hs

theorem C3_sale_amount_rounded_witness :
    ({ id := 1, fuel_type_id := 1, litres := 50000, price_at_sale := 90000,
       amount := 450000, sold_at := 1 } : SaleRow).amount =
    round2
      (({ id := 1, fuel_type_id := 1, litres := 50000, price_at_sale := 90000,
          amount := 450000, sold_at := 1 } : SaleRow).litres *
       ({ id := 1, fuel_type_id := 1, litres := 50000, price_at_sale := 90000,
          amount := 450000, sold_at := 1 } : SaleRow).price_at_sale) :=
  C3_sale_amount_rounded
    ⟨[.create "diesel" 90000 500000, .sale 1 50000], rfl⟩
    { id := 1, fuel_type_id := 1, litres := 50000, price_at_sale := 90000,
      amount := 450000, sold_at := 1 }
    (by decide)

/-- C7: for every committed Sale in a reachable store, its `price_at_sale`
equals the price of some price-history segment of its fuel type whose interval
contains a timestamp `t ≤ sold_at` (the price was live per the history at an
instant no later than the sale). -/
theorem C7_price_at_sale_was_live {db : DB} (h : Reachable db) :
    ∀ s ∈ db.sales, ∃ seg ∈ db.price_history,
      seg.fuel_type_id = s.fuel_type_id ∧
      seg.price_per_litre = s.price_at_sale ∧
      ∃ t : Nat, t ≤ s.sold_at ∧ seg.valid_from ≤ t ∧
        (seg.valid_to = none ∨ ∃ e, seg.valid_to = some e ∧ t ≤ e) :=
  fun s hs => (inv_reachable h).covered s hs

theorem C7_price_at_sale_was_live_witness :
    ∃ seg ∈ (runOps initDB
      [.create "diesel" 90000 500000, .updatePrice 1 80000,
       .sale 1 50000]).price_history,
      seg.fuel_type_id =
        ({ id := 1, fuel_type_id := 1, litres := 50000,
           price_at_sale := 80000, amount := 400000,
           sold_at := 2 } : SaleRow).fuel_type_id ∧
      seg.price_per_litre =
        ({ id := 1, fuel_type_id := 1, litres := 50000,
           price_at_sale := 80000, amount := 400000,
           sold_at := 2 } : SaleRow).price_at_sale ∧
      ∃ t : Nat,
        t ≤ ({ id := 1, fuel_type_id := 1, litres := 50000,
               price_at_sale := 80000, amount := 400000,
               sold_at := 2 } : SaleRow).sold_at ∧
        seg.valid_from ≤ t ∧
        (seg.valid_to = none ∨ ∃ e, seg.valid_to = some e ∧ t ≤ e) :=
  C7_price_at_sale_was_live
    ⟨[.create "diesel" 90000 500000, .updatePrice 1 80000, .sale 1 50000],
     rfl⟩
    { id := 1, fuel_type_id := 1, litres := 50000, price_at_sale := 80000,
      amount := 400000, sold_at := 2 }
    (by decide)

theorem except_isOk_ne_error {E A : Type} (x : Except E A)
    (h : x.isOk = true) (e : E) : x ≠ .error e := by
  intro he
  subst he
  simp [Except.isOk, Except.toBool] at h

/-- C4 (counterexample to the claim as stated): the duplicate pre-check of
`create_fuel_type` compares names case-sensitively (`WHERE name = :name` after
`name.strip()`), so a name that equals an existing name only after case
normalization is NOT rejected: with "diesel" existing, creating "Diesel" does
not yield Conflict. -/
theorem C4_counterexample :
    (lowerName (pyStrip "Diesel") = lowerName (pyStrip "diesel")) ∧
    ((runOps initDB [.create "diesel" 90000 0]).fuel_types.map
      (fun ft => ft.name) = ["diesel"]) ∧
    create_fuel_type (runOps initDB [.create "diesel" 90000 0])
      "Diesel" 90000 0 ≠ .error .ConflictError :=
  ⟨by decide, by decide, except_isOk_ne_error _ (by decide) _⟩

/-- C4 (amended): for every call to `create_fuel_type` with non-negative
price and stock whose name, after whitespace trimming, exactly
(case-sensitively) equals the name of an existing fuel type, the operation
yields Conflict, performs no writes, and leaves every row unchanged. -/
theorem C4_duplicate_name_conflict {db : DB} {name : String} {p s : ℤ}
    (hp : 0 ≤ p) (hs : 0 ≤ s) {ft : FuelTypeRow} (hft : ft ∈ db.fuel_types)
    (hname : ft.name = pyStrip name) :
    create_fuel_type db name p s = .error .ConflictError ∧
    applyOp db (.create name p s) = db := by
  have hres : create_fuel_type db name p s = .error .ConflictError := by
    simp only [create_fuel_type]
    rw [if_neg (by push_neg; exact ⟨hp, hs⟩)]
    rw [if_pos (List.any_eq_true.mpr ⟨ft, hft, by simp [hname]⟩)]
  exact ⟨hres, by simp [applyOp, hres]⟩

theorem C4_duplicate_name_conflict_witness :
    create_fuel_type (runOps initDB [.create "diesel" 90000 0])
      "diesel" 95000 100000 = .error .ConflictError ∧
    applyOp (runOps initDB [.create "diesel" 90000 0])
      (.create "diesel" 95000 100000) =
      runOps initDB [.create "diesel" 90000 0] :=
  C4_duplicate_name_conflict (by decide) (by decide)
    (show ({ id := 1, name := "diesel", price_per_litre := 90000,
             stock_litres := 0, created_at := 0, updated_at := 0 }
           : FuelTypeRow) ∈
          (runOps initDB [.create "diesel" 90000 0]).fuel_types by decide)
    (by decide)

/-- C9: `create_fuel_type` raises `ValidationError` if and only if the given
price or initial stock is negative; in particular, a name that is empty or
whitespace-only after trimming is not rejected — with non-negative price and
stock (and no existing empty-named row to conflict with), a fuel type whose
name is the empty string is created. -/
theorem C9_create_validation_iff (db : DB) (name : String) (p s : ℤ) :
    (create_fuel_type db name p s = .error .ValidationError ↔
      (p < 0 ∨ s < 0)) ∧
    (pyStrip name = "" → 0 ≤ p → 0 ≤ s →
      (∀ ft ∈ db.fuel_types, ft.name ≠ "") →
      ∃ r db2, create_fuel_type db name p s = .ok (r, db2) ∧
        r.name = "" ∧ r ∈ db2.fuel_types) := by
  constructor
  · constructor
    · intro h
      by_contra hc
      simp only [create_fuel_type] at h
      rw [if_neg hc] at h
      split at h
      · exact absurd h (by simp)
      · exact absurd h (by simp)
    · intro h
      simp only [create_fuel_type]
      rw [if_pos h]
  · intro hemp hp hs hnone
    have hany : (db.fuel_types.any (fun ft => ft.name == pyStrip name))
        = false := by
      apply List.any_eq_false.mpr
      intro ft hft
      rw [hemp]
      simpa using hnone ft hft
    have hres : create_fuel_type db name p s =
        .ok ({ id := db.next_ft_id, name := pyStrip name,
               price_per_litre := p, stock_litres := s,
               created_at := db.now, updated_at := db.now },
             { db with
               fuel_types := db.fuel_types ++
                 [{ id := db.next_ft_id, name := pyStrip name,
                    price_per_litre := p, stock_litres := s,
                    created_at := db.now, updated_at := db.now }],
               price_history := db.price_history ++
                 [{ id := db.next_ph_id, fuel_type_id := db.next_ft_id,
                    price_per_litre := p, valid_from := db.now,
                    valid_to := none }],
               next_ft_id := db.next_ft_id + 1,
               next_ph_id := db.next_ph_id + 1,
               now := db.now + 1 }) := by
      simp only [create_fuel_type]
      rw [if_neg (by push_neg; exact ⟨hp, hs⟩)]
      rw [if_neg (by simp [hany])]
    refine ⟨_, _, hres, hemp, ?_⟩
    exact List.mem_append_right _ (List.mem_singleton.mpr rfl)

theorem C9_create_validation_iff_witness :
    ∃ r db2, create_fuel_type initDB "   " 90000 0 = .ok (r, db2) ∧
      r.name = "" ∧ r ∈ db2.fuel_types :=
  (C9_create_validation_iff initDB "   " 90000 0).2 (by decide) (by decide)
    (by decide) (by decide)

/-- C8: `refill_stock(fuel_type_id, litres)` with `litres > 0` on an existing
fuel type adds `litres` to its stock in one store statement and returns the
post-update stock; it fails `NotFoundError` for an unknown id; and both
`refill_stock` and `record_sale` fail `ValidationError` before any store
access (on every store state, leaving it unchanged) when `litres ≤ 0`. -/
theorem C8_refill_stock {db : DB} (hreach : Reachable db) (ftid : Nat)
    (litres : ℤ) :
    (litres ≤ 0 → ∀ db0 : DB,
      refill_stock db0 ftid litres = .error .ValidationError ∧
      record_sale db0 ftid litres = .error .ValidationError ∧
      applyOp db0 (.refill ftid litres) = db0 ∧
      applyOp db0 (.sale ftid litres) = db0) ∧
    (0 < litres →
      (∀ ft ∈ db.fuel_types, ft.id = ftid →
        ∃ db2, refill_stock db ftid litres =
            .ok (ft.stock_litres + litres, db2) ∧
          { ft with stock_litres := ft.stock_litres + litres,
                    updated_at := db.now } ∈ db2.fuel_types ∧
          (∀ ft2 ∈ db.fuel_types, ft2.id ≠ ftid → ft2 ∈ db2.fuel_types) ∧
          db2.sales = db.sales ∧ db2.price_history = db.price_history) ∧
      ((∀ ft ∈ db.fuel_types, ft.id ≠ ftid) →
        refill_stock db ftid litres = .error .NotFoundError ∧
        applyOp db (.refill ftid litres) = db)) := by
  have inv := inv_reachable hreach
  constructor
  · intro hle db0
    have h1 : refill_stock db0 ftid litres = .error .ValidationError := by
      unfold refill_stock
      rw [if_pos hle]
    have h2 : record_sale db0 ftid litres = .error .ValidationError := by
      unfold record_sale
      rw [if_pos hle]
    exact ⟨h1, h2, by simp [applyOp, h1], by simp [applyOp, h2]⟩
  · intro hl
    constructor
    · intro ft hft hid
      have hfil : db.fuel_types.filter (fun r => r.id == ftid) = [ft] := by
        have h0 := filter_id_singleton inv.nodup hft
        rw [hid] at h0
        exact h0
      have hres : refill_stock db ftid litres =
          .ok (ft.stock_litres + litres,
            { db with
              fuel_types := db.fuel_types.map (addStockRow ftid litres db.now),
              now := db.now + 1 }) := by
        unfold refill_stock
        rw [if_neg (not_le.mpr hl), hfil]
        rfl
      refine ⟨_, hres, ?_, ?_, rfl, rfl⟩
      · rw [← addStockRow_of_eq litres db.now hid]
        exact List.mem_map_of_mem _ hft
      · intro ft2 hft2 hne
        rw [← addStockRow_of_ne litres db.now hne]
        exact List.mem_map_of_mem _ hft2
    · intro hnone
      have hfil : db.fuel_types.filter (fun r => r.id == ftid) = [] :=
        filter_id_nil hnone
      have hres : refill_stock db ftid litres = .error .NotFoundError := by
        unfold refill_stock
        rw [if_neg (not_le.mpr hl), hfil]
        rfl
      exact ⟨hres, by simp [applyOp, hres]⟩

theorem C8_refill_stock_witness :
    (refill_stock initDB 1 0 = .error .ValidationError ∧
     record_sale initDB 1 0 = .error .ValidationError) ∧
    (∃ db2, refill_stock (runOps initDB [.create "diesel" 90000 500000]) 1
        100000 = .ok (600000, db2)) ∧
    refill_stock (runOps initDB [.create "diesel" 90000 500000]) 77 100000 =
      .error .NotFoundError := by
  have hv := (C8_refill_stock (show Reachable initDB from ⟨[], rfl⟩) 1 0).1
    (by decide) initDB
  have hok := ((C8_refill_stock
      ⟨[.create "diesel" 90000 500000], rfl⟩ 1 100000).2 (by decide)).1
    { id := 1, name := "diesel", price_per_litre := 90000,
      stock_litres := 500000, created_at := 0, updated_at := 0 }
    (by decide) rfl
  have hnf := ((C8_refill_stock
      ⟨[.create "diesel" 90000 500000], rfl⟩ 77 100000).2 (by decide)).2
    (by decide)
  obtain ⟨db2, hres, -, -, -, -⟩ := hok
  exact ⟨⟨hv.1, hv.2.1⟩, ⟨db2, hres⟩, hnf.1⟩

theorem closeSeg_of_open {ftid : Nat} (t0 : Nat) {seg : PriceHistoryRow}
    (h1 : seg.fuel_type_id = ftid) (h2 : seg.valid_to = none) :
    closeSeg ftid t0 seg = { seg with valid_to := some t0 } := by
  unfold closeSeg
  simp [h1, h2]

theorem closeSeg_of_closed {ftid : Nat} (t0 : Nat) {seg : PriceHistoryRow}
    (h : seg.valid_to ≠ none) : closeSeg ftid t0 seg = seg := by
  unfold closeSeg
  simp [Option.isNone_iff_eq_none, h]

/-- C5: `update_price(fuel_type_id, new_price)` with `new_price ≥ 0` on an
existing fuel type, in one transaction, closes every currently-open price
history segment of the fuel type (setting its end to now), updates the fuel
price column of the fuel type and its updated-at timestamp, and inserts a new open segment
at the new price; on an unknown id it fails `NotFoundError` and changes
nothing (the transaction rolls back, so no step applies partially). -/
theorem C5_update_price {db : DB} (hreach : Reachable db) (ftid : Nat)
    (p : ℤ) (hp : 0 ≤ p) :
    (∀ ft ∈ db.fuel_types, ft.id = ftid →
      ∃ r db2, update_price db ftid p = .ok (r, db2) ∧
        { ft with price_per_litre := p, updated_at := db.now } ∈
          db2.fuel_types ∧
        (∀ ft2 ∈ db.fuel_types, ft2.id ≠ ftid → ft2 ∈ db2.fuel_types) ∧
        (∀ seg ∈ db.price_history, seg.fuel_type_id = ftid →
          seg.valid_to = none →
          { seg with valid_to := some db.now } ∈ db2.price_history) ∧
        (∀ seg ∈ db.price_history,
          seg.fuel_type_id ≠ ftid ∨ seg.valid_to ≠ none →
          seg ∈ db2.price_history) ∧
        ({ id := db.next_ph_id, fuel_type_id := ftid, price_per_litre := p,
           valid_from := db.now, valid_to := none } : PriceHistoryRow) ∈
          db2.price_history ∧
        db2.price_history.length = db.price_history.length + 1 ∧
        db2.sales = db.sales) ∧
    ((∀ ft ∈ db.fuel_types, ft.id ≠ ftid) →
      update_price db ftid p = .error .NotFoundError ∧
      applyOp db (.updatePrice ftid p) = db) := by
  have inv := inv_reachable hreach
  constructor
  · intro ft hft hid
    have hfil : db.fuel_types.filter (fun r => r.id == ftid) = [ft] := by
      have h0 := filter_id_singleton inv.nodup hft
      rw [hid] at h0
      exact h0
    have hres : update_price db ftid p =
        .ok ({ ft with price_per_litre := p, updated_at := db.now },
          { db with
            fuel_types := db.fuel_types.map (setPriceRow ftid p db.now),
            price_history := db.price_history.map (closeSeg ftid db.now) ++
              [{ id := db.next_ph_id, fuel_type_id := ftid,
                 price_per_litre := p, valid_from := db.now,
                 valid_to := none }],
            next_ph_id := db.next_ph_id + 1,
            now := db.now + 1 }) := by
      unfold update_price
      rw [if_neg (not_lt.mpr hp), hfil]
      rfl
    refine ⟨_, _, hres, ?_, ?_, ?_, ?_, ?_, ?_, rfl⟩
    · rw [← setPriceRow_of_eq p db.now hid]
      exact List.mem_map_of_mem _ hft
    · intro ft2 hft2 hne
      rw [← setPriceRow_of_ne p db.now hne]
      exact List.mem_map_of_mem _ hft2
    · intro seg hseg h1 h2
      rw [← closeSeg_of_open db.now h1 h2]
      exact List.mem_append_left _ (List.mem_map_of_mem _ hseg)
    · intro seg hseg hcase
      rcases hcase with hne | hclosed
      · rw [← closeSeg_of_ne db.now hne]
        exact List.mem_append_left _ (List.mem_map_of_mem _ hseg)
      · rw [← closeSeg_of_closed db.now hclosed]
        exact List.mem_append_left _ (List.mem_map_of_mem _ hseg)
    · exact List.mem_append_right _ (List.mem_singleton.mpr rfl)
    · simp
  · intro hnone
    have hfil : db.fuel_types.filter (fun r => r.id == ftid) = [] :=
      filter_id_nil hnone
    have hres : update_price db ftid p = .error .NotFoundError := by
      unfold update_price
      rw [if_neg (not_lt.mpr hp), hfil]
      rfl
    exact ⟨hres, by simp [applyOp, hres]⟩

theorem C5_update_price_witness :
    (∃ r db2, update_price (runOps initDB [.create "diesel" 90000 500000]) 1
        95000 = .ok (r, db2) ∧
      ({ id := 1, name := "diesel", price_per_litre := 95000,
         stock_litres := 500000, created_at := 0, updated_at := 1 }
        : FuelTypeRow) ∈ db2.fuel_types ∧
      ({ id := 2, fuel_type_id := 1, price_per_litre := 95000,
         valid_from := 1, valid_to := none } : PriceHistoryRow) ∈
        db2.price_history) ∧
    update_price (runOps initDB [.create "diesel" 90000 500000]) 77 95000 =
      .error .NotFoundError := by
  have hok := (C5_update_price
      ⟨[.create "diesel" 90000 500000], rfl⟩ 1 95000 (by decide)).1
    { id := 1, name := "diesel", price_per_litre := 90000,
      stock_litres := 500000, created_at := 0, updated_at := 0 }
    (by decide) rfl
  obtain ⟨r, db2, hres, hmem, -, -, -, hnew, -, -⟩ := hok
  have hnf := (C5_update_price
      ⟨[.create "diesel" 90000 500000], rfl⟩ 77 95000 (by decide)).2
    (by decide)
  exact ⟨⟨r, db2, hres, hmem, hnew⟩, hnf.1⟩

/-- C1: `record_sale(fuel_type_id, litres)` with `litres > 0`: if the fuel
type exists and has stock ≥ litres, the stock is decremented by litres and a
Sale row is inserted copying the price read in the same conditional step; if
the fuel type exists with stock < litres nothing is written and the outcome is
`InsufficientStockError`; if it does not exist nothing is written and the
outcome is `NotFoundError`. -/
theorem C1_record_sale_conditional {db : DB} (hreach : Reachable db)
    (ftid : Nat) (litres : ℤ) (hl : 0 < litres) :
    (∀ ft ∈ db.fuel_types, ft.id = ftid → litres ≤ ft.stock_litres →
      ∃ s db2, record_sale db ftid litres = .ok (s, db2) ∧
        { ft with stock_litres := ft.stock_litres - litres,
                  updated_at := db.now } ∈ db2.fuel_types ∧
        (∀ ft2 ∈ db.fuel_types, ft2.id ≠ ftid → ft2 ∈ db2.fuel_types) ∧
        db2.sales = db.sales ++ [s] ∧
        s.fuel_type_id = ftid ∧ s.litres = litres ∧
        s.price_at_sale = ft.price_per_litre ∧
        s.amount = round2 (litres * ft.price_per_litre) ∧
        s.sold_at = db.now) ∧
    (∀ ft ∈ db.fuel_types, ft.id = ftid → ft.stock_litres < litres →
      record_sale db ftid litres = .error .InsufficientStockError ∧
      applyOp db (.sale ftid litres) = db) ∧
    ((∀ ft ∈ db.fuel_types, ft.id ≠ ftid) →
      record_sale db ftid litres = .error .NotFoundError ∧
      applyOp db (.sale ftid litres) = db) := by
  have inv := inv_reachable hreach
  refine ⟨?_, ?_, ?_⟩
  · intro ft hft hid hstock
    have hcond : saleCond ftid litres ft = true := by
      simp [saleCond, hid, hstock]
    have hupd : db.fuel_types.filter (saleCond ftid litres) = [ft] :=
      filter_eq_singleton_of_nodup inv.nodup
        (fun q hq => by
          simp only [saleCond, Bool.and_eq_true, beq_iff_eq] at hq
          exact hq.1) hft hcond
    have hnewS : newSalesOf db ftid litres = [mkSaleRow db litres ft] := by
      unfold newSalesOf
      rw [hupd]
      rfl
    have hres : record_sale db ftid litres =
        .ok (mkSaleRow db litres ft,
          { db with
            fuel_types := db.fuel_types.map (sellRow ftid litres db.now),
            sales := db.sales ++ [mkSaleRow db litres ft],
            next_sale_id := db.next_sale_id + 1,
            now := db.now + 1 }) := by
      unfold record_sale
      rw [if_neg (not_le.mpr hl), hnewS]
      rfl
    refine ⟨mkSaleRow db litres ft, _, hres, ?_, ?_, rfl, hid, rfl, rfl,
      rfl, rfl⟩
    · rw [← sellRow_of_cond db.now hcond]
      exact List.mem_map_of_mem _ hft
    · intro ft2 hft2 hne
      rw [← sellRow_of_ne litres db.now hne]
      exact List.mem_map_of_mem _ hft2
  · intro ft hft hid hstock
    have hfid : db.fuel_types.filter (fun r => r.id == ftid) = [ft] := by
      have h0 := filter_id_singleton inv.nodup hft
      rw [hid] at h0
      exact h0
    have hupd : db.fuel_types.filter (saleCond ftid litres) = [] := by
      apply List.filter_eq_nil_iff.mpr
      intro r hr hcr
      simp only [saleCond, Bool.and_eq_true, beq_iff_eq,
        decide_eq_true_eq] at hcr
      have hrmem : r ∈ db.fuel_types.filter (fun q => q.id == ftid) :=
        List.mem_filter.mpr ⟨hr, by simp [hcr.1]⟩
      rw [hfid] at hrmem
      have hrft : r = ft := List.mem_singleton.mp hrmem
      rw [hrft] at hcr
      exact absurd hcr.2 (not_le.mpr hstock)
    have hnewS : newSalesOf db ftid litres = [] := by
      unfold newSalesOf
      rw [hupd]
      rfl
    have hany : (db.fuel_types.any (fun r => r.id == ftid)) = true :=
      List.any_eq_true.mpr ⟨ft, hft, by simp [hid]⟩
    have hstep : record_sale db ftid litres =
        if (db.fuel_types.any (fun r => r.id == ftid)) = true then
          .error .InsufficientStockError
        else .error .NotFoundError := by
      unfold record_sale
      rw [if_neg (not_le.mpr hl), hnewS]
      rfl
    have hres : record_sale db ftid litres =
        .error .InsufficientStockError := by
      rw [hstep, if_pos hany]
    exact ⟨hres, by simp [applyOp, hres]⟩
  · intro hnone
    have hupd : db.fuel_types.filter (saleCond ftid litres) = [] := by
      apply List.filter_eq_nil_iff.mpr
      intro r hr hcr
      simp only [saleCond, Bool.and_eq_true, beq_iff_eq,
        decide_eq_true_eq] at hcr
      exact hnone r hr hcr.1
    have hnewS : newSalesOf db ftid litres = [] := by
      unfold newSalesOf
      rw [hupd]
      rfl
    have hany : (db.fuel_types.any (fun r => r.id == ftid)) = false := by
      apply List.any_eq_false.mpr
      intro r hr
      simpa using hnone r hr
    have hstep : record_sale db ftid litres =
        if (db.fuel_types.any (fun r => r.id == ftid)) = true then
          .error .InsufficientStockError
        else .error .NotFoundError := by
      unfold record_sale
      rw [if_neg (not_le.mpr hl), hnewS]
      rfl
    have hres : record_sale db ftid litres = .error .NotFoundError := by
      rw [hstep, if_neg (by simp [hany])]
    exact ⟨hres, by simp [applyOp, hres]⟩

theorem C1_record_sale_conditional_witness :
    (∃ s db2, record_sale (runOps initDB [.create "diesel" 90000 500000]) 1
        50000 = .ok (s, db2) ∧
      s.price_at_sale = 90000 ∧ s.litres = 50000) ∧
    record_sale (runOps initDB [.create "diesel" 90000 500000]) 1 600000 =
      .error .InsufficientStockError ∧
    record_sale (runOps initDB [.create "diesel" 90000 500000]) 77 50000 =
      .error .NotFoundError := by
  have hok := (C1_record_sale_conditional
      ⟨[.create "diesel" 90000 500000], rfl⟩ 1 50000 (by decide)).1
    { id := 1, name := "diesel", price_per_litre := 90000,
      stock_litres := 500000, created_at := 0, updated_at := 0 }
    (by decide) rfl (by decide)
  obtain ⟨s, db2, hres, -, -, -, -, hlit, hprice, -, -⟩ := hok
  have hins := ((C1_record_sale_conditional
      ⟨[.create "diesel" 90000 500000], rfl⟩ 1 600000 (by decide)).2.1
    { id := 1, name := "diesel", price_per_litre := 90000,
      stock_litres := 500000, created_at := 0, updated_at := 0 }
    (by decide) rfl (by decide)).1
  have hnf := ((C1_record_sale_conditional
      ⟨[.create "diesel" 90000 500000], rfl⟩ 77 50000 (by decide)).2.2
    (by decide)).1
  exact ⟨⟨s, db2, hres, by rw [hprice], hlit⟩, hins, hnf⟩

/-- C10: a successful `record_sale` on fuel type `ftid` changes, among all
fuel-type rows, only the row with id `ftid` — and there only `stock_litres`
(down by exactly the litres sold) and `updated_at`; the id, name and
`price_per_litre`, every other fuel-type row, and every price-history row are
unchanged. -/
theorem C10_sale_frame {db : DB} (hreach : Reachable db) {ftid : Nat}
    {litres : ℤ} {s : SaleRow} {db2 : DB}
    (h : record_sale db ftid litres = .ok (s, db2)) :
    db2.price_history = db.price_history ∧
    db2.fuel_types.length = db.fuel_types.length ∧
    ∀ i (h1 : i < db.fuel_types.length) (h2 : i < db2.fuel_types.length),
      (db2.fuel_types[i]).id = (db.fuel_types[i]).id ∧
      (db2.fuel_types[i]).name = (db.fuel_types[i]).name ∧
      (db2.fuel_types[i]).price_per_litre =
        (db.fuel_types[i]).price_per_litre ∧
      ((db.fuel_types[i]).id ≠ ftid →
        db2.fuel_types[i] = db.fuel_types[i]) ∧
      ((db.fuel_types[i]).id = ftid →
        (db2.fuel_types[i]).stock_litres =
          (db.fuel_types[i]).stock_litres - litres ∧
        (db2.fuel_types[i]).updated_at = db.now) := by
  have inv := inv_reachable hreach
  obtain ⟨hl, hhead, hdb⟩ := sale_ok_elim h
  have hmem : s ∈ newSalesOf db ftid litres := by
    cases hn : newSalesOf db ftid litres with
    | nil => rw [hn] at hhead; cases hhead
    | cons b u =>
      rw [hn] at hhead
      simp only [List.head?_cons, Option.some.injEq] at hhead
      subst hhead
      exact List.mem_cons_self _ _
  obtain ⟨ft1, hft1, hid1, hstk1, -⟩ := newSalesOf_char hmem
  have hfid : db.fuel_types.filter (fun q => q.id == ftid) = [ft1] := by
    have h0 := filter_id_singleton inv.nodup hft1
    rw [hid1] at h0
    exact h0
  subst hdb
  refine ⟨rfl, by simp, ?_⟩
  intro i h1 h2
  have hmap : (db.fuel_types.map (sellRow ftid litres db.now))[i] =
      sellRow ftid litres db.now (db.fuel_types[i]) :=
    List.getElem_map _
  simp only [hmap]
  refine ⟨sellRow_id _ _ _ _, sellRow_name _ _ _ _, sellRow_price _ _ _ _,
    ?_, ?_⟩
  · intro hne
    exact sellRow_of_ne litres db.now hne
  · intro hide
    have hrmem : db.fuel_types[i] ∈
        db.fuel_types.filter (fun q => q.id == ftid) :=
      List.mem_filter.mpr ⟨List.getElem_mem _, by simp [hide]⟩
    rw [hfid] at hrmem
    have hrft : db.fuel_types[i] = ft1 := List.mem_singleton.mp hrmem
    have hcond : saleCond ftid litres (db.fuel_types[i]) = true := by
      rw [hrft]
      simp [saleCond, hid1, hstk1]
    rw [sellRow_of_cond db.now hcond]
    exact ⟨rfl, rfl⟩

theorem C10_sale_frame_witness :
    ∃ s db2, record_sale (runOps initDB [.create "diesel" 90000 500000]) 1
        50000 = .ok (s, db2) ∧
      db2.price_history =
        (runOps initDB [.create "diesel" 90000 500000]).price_history ∧
      db2.fuel_types.length =
        (runOps initDB [.create "diesel" 90000 500000]).fuel_types.length := by
  have hres : record_sale (runOps initDB [.create "diesel" 90000 500000]) 1
      50000 =
    .ok ({ id := 1, fuel_type_id := 1, litres := 50000,
           price_at_sale := 90000, amount := 450000, sold_at := 1 },
         { fuel_types :=
             [{ id := 1, name := "diesel", price_per_litre := 90000,
                stock_litres := 450000, created_at := 0, updated_at := 1 }],
           price_history :=
             [{ id := 1, fuel_type_id := 1, price_per_litre := 90000,
                valid_from := 0, valid_to := none }],
           sales :=
             [{ id := 1, fuel_type_id := 1, litres := 50000,
                price_at_sale := 90000, amount := 450000, sold_at := 1 }],
           next_ft_id := 2, next_ph_id := 2, next_sale_id := 2,
           now := 2 }) := rfl
  have hc := C10_sale_frame ⟨[.create "diesel" 90000 500000], rfl⟩ hres
  exact ⟨_, _, hres, hc.1, hc.2.1⟩

/-- C6: in every reachable state, every fuel type has exactly one open
price-history segment (never zero, never more than one); and every successful
`update_price` starts from exactly one open segment, closes it (its end set to
now appears in the new state), inserts exactly one new segment — the new open
one at the new price — and ends with exactly one open segment. -/
theorem C6_open_segment_uniqueness :
    (∀ ops : List Op, ∀ ft ∈ (runOps initDB ops).fuel_types,
      openCount ft.id (runOps initDB ops).price_history = 1) ∧
    (∀ db : DB, Reachable db → ∀ ftid p r db2,
      update_price db ftid p = .ok (r, db2) →
      openCount ftid db.price_history = 1 ∧
      openCount ftid db2.price_history = 1 ∧
      db2.price_history.length = db.price_history.length + 1 ∧
      (∀ seg ∈ db.price_history, seg.fuel_type_id = ftid →
        seg.valid_to = none →
        { seg with valid_to := some db.now } ∈ db2.price_history) ∧
      ({ id := db.next_ph_id, fuel_type_id := ftid, price_per_litre := p,
         valid_from := db.now, valid_to := none } : PriceHistoryRow) ∈
        db2.price_history) := by
  constructor
  · intro ops ft hft
    exact (inv_runOps ops initDB inv_initDB).openc ft hft
  · intro db hreach ftid p r db2 h
    have inv := inv_reachable hreach
    obtain ⟨hp, ft0, hhead, hr, hdb⟩ := update_ok_elim h
    obtain ⟨hft0mem, hft0id⟩ := head?_filter_eq hhead
    have hbefore : openCount ftid db.price_history = 1 := by
      rw [← hft0id]
      exact inv.openc ft0 hft0mem
    subst hdb
    refine ⟨hbefore, ?_, by simp, ?_, ?_⟩
    · rw [openCount_append, openCount_close_self]
      simp [openCount, List.filter]
    · intro seg hseg h1 h2
      rw [← closeSeg_of_open db.now h1 h2]
      exact List.mem_append_left _ (List.mem_map_of_mem _ hseg)
    · exact List.mem_append_right _ (List.mem_singleton.mpr rfl)

theorem C6_open_segment_uniqueness_witness :
    openCount 1
      (runOps initDB [.create "diesel" 90000 500000]).price_history = 1 ∧
    ∃ r db2, update_price (runOps initDB [.create "diesel" 90000 500000]) 1
        95000 = .ok (r, db2) ∧
      openCount 1 db2.price_history = 1 ∧
      db2.price_history.length =
        (runOps initDB
          [.create "diesel" 90000 500000]).price_history.length + 1 := by
  have h1 := C6_open_segment_uniqueness.1 [.create "diesel" 90000 500000]
    { id := 1, name := "diesel", price_per_litre := 90000,
      stock_litres := 500000, created_at := 0, updated_at := 0 }
    (by decide)
  have hres : update_price (runOps initDB [.create "diesel" 90000 500000]) 1
      95000 =
    .ok ({ id := 1, name := "diesel", price_per_litre := 95000,
           stock_litres := 500000, created_at := 0, updated_at := 1 },
         { fuel_types :=
             [{ id := 1, name := "diesel", price_per_litre := 95000,
                stock_litres := 500000, created_at := 0, updated_at := 1 }],
           price_history :=
             [{ id := 1, fuel_type_id := 1, price_per_litre := 90000,
                valid_from := 0, valid_to := some 1 },
              { id := 2, fuel_type_id := 1, price_per_litre := 95000,
                valid_from := 1, valid_to := none }],
           sales := [], next_ft_id := 2, next_ph_id := 3, next_sale_id := 1,
           now := 2 }) := rfl
  have h2 := C6_open_segment_uniqueness.2
    (runOps initDB [.create "diesel" 90000 500000])
    ⟨[.create "diesel" 90000 500000], rfl⟩ 1 95000 _ _ hres
  exact ⟨h1, _, _, hres, h2.2.1, h2.2.2.1⟩
